import Mathlib

/-!
Verification of the core of `youtube_audio.py`: the `StreamingAudioPlayer`
frame reassembler (`_audio_callback`, `add_audio`, `__init__`) and the
`YouTubeAudioPlayer` play/stop session state machine together with its
decode-loop worker (`_stream_and_play`).

The embedding is shallow: numpy sample arrays become Lean lists, the
thread-safe queue becomes a FIFO `List` of chunks, and the stateful
methods become explicit state-passing functions.  Sample values are only
ever moved or zero-filled by the code under verification, never computed
with, so a frame is modelled as a pair of integers (left/right channel).
-/

/-- One stereo audio frame: a left and a right sample value.  The code
opens the output stream with `channels=2` and `add_audio` asserts two
columns, so every frame flowing through the callback has exactly two
samples. -/
abbrev Frame := Int × Int

/-- The value written by `outdata[len(buffer):] = 0`: a frame whose two
samples are exactly zero. -/
def zeroFrame : Frame := (0, 0)

/-- State of a `StreamingAudioPlayer` as seen by the audio callback:
`queue` models `self._queue` (FIFO, head = oldest chunk, each chunk an
N-by-2 array modelled as a list of frames) and `leftover` models
`self._leftover_buffer` (`none` = Python `None`; note the code can also
store an empty array there, which is why the field is an `Option`). -/
structure StreamingAudioPlayer where
  queue : List (List Frame)
  leftover : Option (List Frame)
deriving DecidableEq, Repr

/-- Lines 74-76 of `_audio_callback`: if `self._leftover_buffer is not
None and len(self._leftover_buffer) > 0`, the leftover becomes the
initial content of the accumulation buffer and the slot is reset to
`None`; otherwise the buffer starts empty and the slot is untouched. -/
def consumeLeftover (s : StreamingAudioPlayer) : List Frame × StreamingAudioPlayer :=
  match s.leftover with
  | some l => if 0 < l.length then (l, { s with leftover := none }) else ([], s)
  | none => ([], s)

/-- Lines 71-83 of `_audio_callback`: build the accumulation buffer from
the leftover (lines 74-76) and then attempt exactly one non-blocking
`get_nowait` (lines 79-83), appending the fetched chunk if the queue was
non-empty and doing nothing on `queue.Empty`. -/
def accumulate (s : StreamingAudioPlayer) : List Frame × StreamingAudioPlayer :=
  let (b, s1) := consumeLeftover s
  match s1.queue with
  | [] => (b, s1)
  | c :: rest => (b ++ c, { s1 with queue := rest })

/-- Lines 66-91 of `StreamingAudioPlayer._audio_callback`, for one
invocation requesting `frames` output frames (`frames = len(outdata)`).
Returns the frames written to `outdata` together with the state after
the call.  If the accumulation buffer covers the request, the first
`frames` entries are delivered and the rest is stored as the new
leftover (lines 86-88); otherwise the whole buffer is delivered followed
by zero-fill and the leftover slot is left as the accumulation step left
it, i.e. holding no frames (lines 89-91). -/
def _audio_callback (frames : Nat) (s : StreamingAudioPlayer) :
    List Frame × StreamingAudioPlayer :=
  let (buf, s1) := accumulate s
  if frames ≤ buf.length then
    (buf.take frames, { s1 with leftover := some (buf.drop frames) })
  else
    (buf ++ List.replicate (frames - buf.length) zeroFrame, s1)

/-- All frames currently held by the player, in delivery order: the
leftover (delivered first) followed by the queued chunks front to back. -/
def content (s : StreamingAudioPlayer) : List Frame :=
  (s.leftover.getD []) ++ s.queue.flatten

/-- External interactions with a `StreamingAudioPlayer`: `add c` is a
completed `add_audio(c)` call (its blocking `put` has succeeded) and
`callback L` is one `_audio_callback` invocation requesting `L` frames. -/
inductive SAPOp where
  | add : List Frame → SAPOp
  | callback : Nat → SAPOp
deriving DecidableEq, Repr

/-- Run a sequence of operations from a given state, collecting the
concatenation of all frames the callback invocations wrote to `outdata`.
`add c` appends `c` at the tail of the FIFO queue, exactly as
`self._queue.put(audio_data)` does for a chunk that passed the
two-column assertion. -/
def runOps : List SAPOp → StreamingAudioPlayer → List Frame × StreamingAudioPlayer
  | [], s => ([], s)
  | SAPOp.add c :: rest, s => runOps rest { s with queue := s.queue ++ [c] }
  | SAPOp.callback L :: rest, s =>
      ((_audio_callback L s).1 ++ (runOps rest (_audio_callback L s).2).1,
       (runOps rest (_audio_callback L s).2).2)

/-- Decides that no callback invocation in the run underruns: at each
`callback L` step the accumulation buffer has at least `L` frames. -/
def noUnderrunRun : List SAPOp → StreamingAudioPlayer → Bool
  | [], _ => true
  | SAPOp.add c :: rest, s => noUnderrunRun rest { s with queue := s.queue ++ [c] }
  | SAPOp.callback L :: rest, s =>
      decide (L ≤ (accumulate s).1.length) && noUnderrunRun rest (_audio_callback L s).2

/-- Concatenation of all chunks enqueued by `add` operations, in order. -/
def addedFrames : List SAPOp → List Frame
  | [] => []
  | SAPOp.add c :: rest => c ++ addedFrames rest
  | SAPOp.callback _ :: rest => addedFrames rest

theorem consumeLeftover_fst (s : StreamingAudioPlayer) :
    (consumeLeftover s).1 = s.leftover.getD [] := by
  unfold consumeLeftover
  match s with
  | ⟨q, none⟩ => rfl
  | ⟨q, some l⟩ =>
      cases l with
      | nil => simp
      | cons a t => simp

theorem consumeLeftover_queue (s : StreamingAudioPlayer) :
    (consumeLeftover s).2.queue = s.queue := by
  unfold consumeLeftover
  match s with
  | ⟨q, none⟩ => rfl
  | ⟨q, some l⟩ =>
      cases l with
      | nil => simp
      | cons a t => simp

theorem consumeLeftover_leftover_len (s : StreamingAudioPlayer) :
    ((consumeLeftover s).2.leftover.getD []).length = 0 := by
  unfold consumeLeftover
  match s with
  | ⟨q, none⟩ => rfl
  | ⟨q, some l⟩ =>
      cases l with
      | nil => simp
      | cons a t => simp

theorem accumulate_queue (s : StreamingAudioPlayer) :
    (accumulate s).2.queue = s.queue.tail := by
  unfold accumulate
  rcases hq : (consumeLeftover s).2.queue with _ | ⟨c, rest⟩
  · simp [consumeLeftover_queue s ▸ hq, hq]
  · simp [consumeLeftover_queue s ▸ hq, hq]

theorem accumulate_leftover_len (s : StreamingAudioPlayer) :
    ((accumulate s).2.leftover.getD []).length = 0 := by
  unfold accumulate
  rcases hq : (consumeLeftover s).2.queue with _ | ⟨c, rest⟩
  · simpa [hq] using consumeLeftover_leftover_len s
  · simpa [hq] using consumeLeftover_leftover_len s

theorem accumulate_buf (s : StreamingAudioPlayer) :
    (accumulate s).1 = s.leftover.getD [] ++ s.queue.headD [] := by
  unfold accumulate
  rcases h : consumeLeftover s with ⟨b, s1⟩
  have hb : b = s.leftover.getD [] := by
    have hf := consumeLeftover_fst s
    rw [h] at hf
    exact hf
  have hq : s1.queue = s.queue := by
    have hf := consumeLeftover_queue s
    rw [h] at hf
    exact hf
  rcases hqs : s1.queue with _ | ⟨c, rest⟩ <;>
    simp [hb, hq.symm.trans hqs, hqs]

/-- Conservation of frames by the accumulation step: the accumulation
buffer followed by what remains in the player is exactly what the player
held before. -/
theorem accumulate_content (s : StreamingAudioPlayer) :
    (accumulate s).1 ++ content (accumulate s).2 = content s := by
  have hq := accumulate_queue s
  have hl := accumulate_leftover_len s
  have hb := accumulate_buf s
  have hl' : (accumulate s).2.leftover.getD [] = [] := List.length_eq_zero.mp hl
  rcases hqs : s.queue with _ | ⟨c, rest⟩
  · simp [content, hb, hl', hq, hqs]
  · simp [content, hb, hl', hq, hqs]

/-- Conservation of frames by one non-underrunning callback invocation:
what it writes to `outdata` followed by what it leaves behind is exactly
what was there before. -/
theorem audio_callback_content (L : Nat) (s : StreamingAudioPlayer)
    (h : L ≤ (accumulate s).1.length) :
    (_audio_callback L s).1 ++ content (_audio_callback L s).2 = content s := by
  have hc := accumulate_content s
  unfold _audio_callback
  rcases ha : accumulate s with ⟨buf, s1⟩
  rw [ha] at hc h
  simp only at h ⊢
  rw [if_pos h]
  simp only [content] at hc ⊢
  simp only [Option.getD_some]
  rw [← List.append_assoc, List.take_append_drop]
  have hl : (s1.leftover.getD []).length = 0 := by
    have := accumulate_leftover_len s
    rw [ha] at this
    exact this
  have hl' : s1.leftover.getD [] = [] := List.length_eq_zero.mp hl
  rw [hl'] at hc
  simpa using hc

theorem runOps_cons_callback (L : Nat) (rest : List SAPOp) (s : StreamingAudioPlayer) :
    runOps (SAPOp.callback L :: rest) s =
      ((_audio_callback L s).1 ++ (runOps rest (_audio_callback L s).2).1,
       (runOps rest (_audio_callback L s).2).2) := by
  rfl

/-- Conservation of frames by a whole run: the frames delivered to
`outdata`, followed by the frames still held at the end, are exactly the
initial content plus everything enqueued by `add_audio`, in order. -/
theorem runOps_content (ops : List SAPOp) :
    ∀ s : StreamingAudioPlayer, noUnderrunRun ops s = true →
      (runOps ops s).1 ++ content (runOps ops s).2 = content s ++ addedFrames ops := by
  induction ops with
  | nil =>
      intro s _
      simp [runOps, addedFrames]
  | cons op rest ih =>
      intro s h
      cases op with
      | add c =>
          simp only [noUnderrunRun] at h
          simp only [runOps, addedFrames]
          rw [ih _ h]
          simp [content]
      | callback L =>
          simp only [noUnderrunRun, Bool.and_eq_true, decide_eq_true_eq] at h
          obtain ⟨h1, h2⟩ := h
          rw [runOps_cons_callback]
          simp only [addedFrames]
          have hcb := audio_callback_content L s h1
          calc ((_audio_callback L s).1 ++ (runOps rest (_audio_callback L s).2).1) ++
                content (runOps rest (_audio_callback L s).2).2
              = (_audio_callback L s).1 ++
                ((runOps rest (_audio_callback L s).2).1 ++
                 content (runOps rest (_audio_callback L s).2).2) := by
                rw [List.append_assoc]
            _ = (_audio_callback L s).1 ++
                (content (_audio_callback L s).2 ++ addedFrames rest) := by
                rw [ih _ h2]
            _ = ((_audio_callback L s).1 ++ content (_audio_callback L s).2) ++
                addedFrames rest := by
                rw [List.append_assoc]
            _ = content s ++ addedFrames rest := by rw [hcb]

/-- C1: for every sequence of chunks enqueued in order via `add_audio`,
interleaved with callback invocations none of which underruns (the
accumulation buffer always covers the requested length), once the player
is drained the concatenation of the frames the callbacks wrote to
`outdata` equals the concatenation of the enqueued chunks, in order,
each frame exactly once. -/
theorem callback_no_dup_no_loss (ops : List SAPOp)
    (hnu : noUnderrunRun ops ⟨[], none⟩ = true)
    (hdrain : content (runOps ops ⟨[], none⟩).2 = []) :
    (runOps ops ⟨[], none⟩).1 = addedFrames ops := by
  have h := runOps_content ops ⟨[], none⟩ hnu
  rw [hdrain] at h
  simpa [content] using h

/-- Witness for C1: two chunks of two and one frames, delivered by a
150-free run of two exactly-covering callbacks. -/
theorem callback_no_dup_no_loss_witness :
    noUnderrunRun [SAPOp.add [(1, 2), (3, 4)], SAPOp.callback 2,
        SAPOp.add [(5, 6)], SAPOp.callback 1] ⟨[], none⟩ = true ∧
    content (runOps [SAPOp.add [(1, 2), (3, 4)], SAPOp.callback 2,
        SAPOp.add [(5, 6)], SAPOp.callback 1] ⟨[], none⟩).2 = [] ∧
    (runOps [SAPOp.add [(1, 2), (3, 4)], SAPOp.callback 2,
        SAPOp.add [(5, 6)], SAPOp.callback 1] ⟨[], none⟩).1 =
      addedFrames [SAPOp.add [(1, 2), (3, 4)], SAPOp.callback 2,
        SAPOp.add [(5, 6)], SAPOp.callback 1] :=
  ⟨by decide, by decide, callback_no_dup_no_loss _ (by decide) (by decide)⟩

/-- C2: if the accumulation buffer (leftover plus at most one fetched
chunk) has more than the requested `L` frames, its first `L` frames are
written to `outdata`, the remaining frames are stored as the leftover,
and they reappear, unmodified and in order, at the start of the next
invocation's accumulation buffer, before any newly fetched chunk. -/
theorem leftover_carries_over (s : StreamingAudioPlayer) (L : Nat)
    (h : L < (accumulate s).1.length) :
    (_audio_callback L s).1 = (accumulate s).1.take L ∧
    (_audio_callback L s).2.leftover = some ((accumulate s).1.drop L) ∧
    (accumulate (_audio_callback L s).2).1 =
      (accumulate s).1.drop L ++ (_audio_callback L s).2.queue.headD [] := by
  unfold _audio_callback
  rcases ha : accumulate s with ⟨buf, s1⟩
  rw [ha] at h
  simp only at h ⊢
  rw [if_pos (le_of_lt h)]
  refine ⟨rfl, rfl, ?_⟩
  rw [accumulate_buf]
  simp

/-- Witness for C2: one three-frame chunk, requested length one. -/
theorem leftover_carries_over_witness :
    1 < (accumulate ⟨[[(7, 8), (9, 10), (11, 12)]], none⟩).1.length ∧
    ((_audio_callback 1 ⟨[[(7, 8), (9, 10), (11, 12)]], none⟩).1 =
        (accumulate ⟨[[(7, 8), (9, 10), (11, 12)]], none⟩).1.take 1 ∧
      (_audio_callback 1 ⟨[[(7, 8), (9, 10), (11, 12)]], none⟩).2.leftover =
        some ((accumulate ⟨[[(7, 8), (9, 10), (11, 12)]], none⟩).1.drop 1) ∧
      (accumulate (_audio_callback 1 ⟨[[(7, 8), (9, 10), (11, 12)]], none⟩).2).1 =
        (accumulate ⟨[[(7, 8), (9, 10), (11, 12)]], none⟩).1.drop 1 ++
          (_audio_callback 1 ⟨[[(7, 8), (9, 10), (11, 12)]], none⟩).2.queue.headD []) :=
  ⟨by decide, leftover_carries_over _ 1 (by decide)⟩

/-- C3: if the accumulation buffer has fewer than the requested `L`
frames, the output consists of the buffer followed by exact-zero frames,
it still has length `L`, every output position past the buffer holds the
zero frame, and after the invocation the leftover slot holds no frames. -/
theorem underrun_zero_fill (s : StreamingAudioPlayer) (L : Nat)
    (h : (accumulate s).1.length < L) :
    (_audio_callback L s).1 =
      (accumulate s).1 ++ List.replicate (L - (accumulate s).1.length) zeroFrame ∧
    (_audio_callback L s).1.length = L ∧
    (∀ i, (accumulate s).1.length ≤ i → i < L →
      (_audio_callback L s).1[i]? = some zeroFrame) ∧
    ((_audio_callback L s).2.leftover.getD []).length = 0 := by
  have hlen := accumulate_leftover_len s
  unfold _audio_callback
  rcases ha : accumulate s with ⟨buf, s1⟩
  rw [ha] at h hlen
  simp only at h hlen ⊢
  rw [if_neg (not_le.mpr h)]
  refine ⟨rfl, ?_, ?_, hlen⟩
  · simp only [List.length_append, List.length_replicate]
    omega
  · intro i h1 h2
    rw [List.getElem?_append_right h1, List.getElem?_replicate]
    rw [if_pos (by omega)]

/-- Witness for C3: a single one-frame chunk against a request for
three frames. -/
theorem underrun_zero_fill_witness :
    (accumulate ⟨[[(7, 8)]], none⟩).1.length < 3 ∧
    ((_audio_callback 3 ⟨[[(7, 8)]], none⟩).1 =
        (accumulate ⟨[[(7, 8)]], none⟩).1 ++
          List.replicate (3 - (accumulate ⟨[[(7, 8)]], none⟩).1.length) zeroFrame ∧
      (_audio_callback 3 ⟨[[(7, 8)]], none⟩).1.length = 3 ∧
      (∀ i, (accumulate ⟨[[(7, 8)]], none⟩).1.length ≤ i → i < 3 →
        (_audio_callback 3 ⟨[[(7, 8)]], none⟩).1[i]? = some zeroFrame) ∧
      ((_audio_callback 3 ⟨[[(7, 8)]], none⟩).2.leftover.getD []).length = 0) :=
  ⟨by decide, underrun_zero_fill _ 3 (by decide)⟩

theorem audio_callback_queue (L : Nat) (s : StreamingAudioPlayer) :
    (_audio_callback L s).2.queue = s.queue.tail := by
  have hq := accumulate_queue s
  unfold _audio_callback
  rcases ha : accumulate s with ⟨buf, s1⟩
  rw [ha] at hq
  simp only at hq ⊢
  by_cases h2 : L ≤ buf.length <;> simp [h2, hq]

theorem accumulate_fresh (c : List Frame) (q : List (List Frame)) :
    accumulate ⟨c :: q, none⟩ = (c, ⟨q, none⟩) := rfl

theorem audio_callback_fresh_underrun (L : Nat) (c : List Frame)
    (q : List (List Frame)) (h : c.length < L) :
    _audio_callback L ⟨c :: q, none⟩ =
      (c ++ List.replicate (L - c.length) zeroFrame, ⟨q, none⟩) := by
  unfold _audio_callback
  rw [accumulate_fresh]
  simp only
  rw [if_neg (not_le.mpr h)]

/-- Counterexample to C4 as stated: in the spec scenario (chunks A and B
of 100 frames each, block size 150) the first invocation does not
deliver A followed by the first 50 frames of B, because only one chunk
is fetched per invocation; B's frames are not zero, so the actual output
(A plus 50 zero frames) differs, and the leftover is not the tail of B. -/
theorem single_fetch_scenario_counterexample :
    ¬((_audio_callback 150 ⟨[List.replicate 100 ((1 : Int), (1 : Int)),
          List.replicate 100 ((2 : Int), (2 : Int))], none⟩).1 =
        List.replicate 100 ((1 : Int), (1 : Int)) ++
          (List.replicate 100 ((2 : Int), (2 : Int))).take 50 ∧
      (_audio_callback 150 ⟨[List.replicate 100 ((1 : Int), (1 : Int)),
          List.replicate 100 ((2 : Int), (2 : Int))], none⟩).2.leftover =
        some ((List.replicate 100 ((2 : Int), (2 : Int))).drop 50)) := by
  decide

/-- C4 as amended: each callback invocation attempts exactly one
non-blocking fetch (the queue loses exactly its head chunk, nothing
else), and in the spec scenario -- two 100-frame chunks A and B queued,
block size 150 -- the first invocation therefore delivers A followed by
50 zero frames leaving no leftover and B still queued, and the second
invocation delivers B followed by 50 zero frames, emptying the queue. -/
theorem single_fetch_scenario (s : StreamingAudioPlayer) (L : Nat)
    (a b : List Frame) (ha : a.length = 100) (hb : b.length = 100) :
    (_audio_callback L s).2.queue = s.queue.tail ∧
    (_audio_callback 150 ⟨[a, b], none⟩).1 = a ++ List.replicate 50 zeroFrame ∧
    (_audio_callback 150 ⟨[a, b], none⟩).2 = ⟨[b], none⟩ ∧
    (_audio_callback 150 (_audio_callback 150 ⟨[a, b], none⟩).2).1 =
      b ++ List.replicate 50 zeroFrame ∧
    (_audio_callback 150 (_audio_callback 150 ⟨[a, b], none⟩).2).2 = ⟨[], none⟩ := by
  have h1 : _audio_callback 150 ⟨[a, b], none⟩ =
      (a ++ List.replicate 50 zeroFrame, ⟨[b], none⟩) := by
    rw [audio_callback_fresh_underrun 150 a [b] (by omega)]
    rw [ha]
  have h2 : _audio_callback 150 ⟨[b], none⟩ =
      (b ++ List.replicate 50 zeroFrame, ⟨[], none⟩) := by
    rw [audio_callback_fresh_underrun 150 b [] (by omega)]
    rw [hb]
  refine ⟨audio_callback_queue L s, ?_, ?_, ?_, ?_⟩ <;> rw [h1] <;> try rw [h2]

/-- A numpy 2-D sample array as `add_audio` receives it: `shape1` is
`audio_data.shape[1]` (the column count stored in the array's shape
metadata) and `rows` are the sample rows. -/
structure NpArray where
  shape1 : Nat
  rows : List (List Int)
deriving DecidableEq, Repr

/-- Lines 50-57 of `StreamingAudioPlayer.add_audio`, at array
granularity: the two-column assertion runs first; only if it passes is
the array put at the tail of the queue, unmodified.  `Except.error`
models the raised `AssertionError` (the `put` on line 57 is never
reached, so the queue is unchanged in that case). -/
def add_audio (q : List NpArray) (audio_data : NpArray) : Except String (List NpArray) :=
  if audio_data.shape1 = 2 then Except.ok (q ++ [audio_data])
  else Except.error ("audio_data must have 2 channels (columns)")

/-- Lines 34-48 of `StreamingAudioPlayer.__init__`: the `sample_rate`
assertion runs first, then the `queue_size` assertion; only if both pass
are the queue (empty), the output stream, and the leftover slot
(`None`) created.  On an assertion failure nothing is constructed. -/
def StreamingAudioPlayer_init (sample_rate queue_size : Int) :
    Except String StreamingAudioPlayer :=
  if sample_rate > 0 then
    if queue_size > 0 then Except.ok ⟨[], none⟩
    else Except.error ("queue_size must be greater than 0")
  else Except.error ("sample_rate must be greater than 0")

/-- C10: `add_audio` with an array whose column count differs from 2
raises the assertion and enqueues nothing; with exactly 2 columns it
enqueues the array unmodified at the tail; and `__init__` with
`sample_rate <= 0` or `queue_size <= 0` fails its assertion and creates
no player state. -/
theorem add_audio_asserts (q : List NpArray) (a : NpArray) (sr qs : Int) :
    (a.shape1 ≠ 2 →
      add_audio q a = Except.error ("audio_data must have 2 channels (columns)")) ∧
    (a.shape1 = 2 → add_audio q a = Except.ok (q ++ [a])) ∧
    (sr ≤ 0 ∨ qs ≤ 0 → ∃ m, StreamingAudioPlayer_init sr qs = Except.error m) := by
  refine ⟨fun h => ?_, fun h => ?_, fun h => ?_⟩
  · rw [add_audio, if_neg h]
  · rw [add_audio, if_pos h]
  · unfold StreamingAudioPlayer_init
    rcases h with h | h
    · rw [if_neg (by omega)]
      exact ⟨_, rfl⟩
    · by_cases h1 : sr > 0
      · rw [if_pos h1, if_neg (by omega)]
        exact ⟨_, rfl⟩
      · rw [if_neg h1]
        exact ⟨_, rfl⟩

/-- Witness for C10: a three-column array is rejected, a two-column
array is enqueued as-is, and a zero sample rate fails construction. -/
theorem add_audio_asserts_witness :
    (add_audio [] ⟨3, [[1, 2, 3]]⟩ =
      Except.error ("audio_data must have 2 channels (columns)")) ∧
    (add_audio [] ⟨2, [[1, 2]]⟩ = Except.ok [⟨2, [[1, 2]]⟩]) ∧
    (∃ m, StreamingAudioPlayer_init 0 5 = Except.error m) :=
  ⟨(add_audio_asserts [] ⟨3, [[1, 2, 3]]⟩ 0 5).1 (by decide),
   (add_audio_asserts [] ⟨2, [[1, 2]]⟩ 0 5).2.1 (by decide),
   (add_audio_asserts [] ⟨2, [[1, 2]]⟩ 0 5).2.2 (Or.inl (by decide))⟩

/-- The decode loop of `YouTubeAudioPlayer._stream_and_play` (lines
162-174), generically in the chunk threshold (`self._CHUNK_SIZE`, set to
1 in `__init__`).  The decoded stream is flattened into the list of
per-frame arrays (`frame.to_ndarray().transpose()`, each a list of
stereo rows); `i` numbers the iterations so that `ex i` is the value of
`self._exit_worker` the loop reads at iteration `i`.  Each iteration
first checks the flag and returns with nothing further enqueued if it is
set; otherwise it appends the decoded array to `chunk`, and when the
chunk reaches the threshold it enqueues `np.concatenate(chunk)`
(modelled by `List.flatten`) and clears `chunk`.  The result is the
chunks passed to `self._player.add_audio`, in order. -/
def stream_and_play (chunkSize : Nat) (ex : Nat → Bool) :
    Nat → List (List Frame) → List (List Frame) → List (List Frame)
  | _, _, [] => []
  | i, chunk, f :: rest =>
      if ex i then []
      else
        if (chunk ++ [f]).length = chunkSize then
          (chunk ++ [f]).flatten :: stream_and_play chunkSize ex (i + 1) [] rest
        else stream_and_play chunkSize ex (i + 1) (chunk ++ [f]) rest

/-- The cancellation flag as the worker observes it: `stop()` (or a
`play()` that stops first) writes `self._exit_worker = True` exactly
once, so there is an iteration index `k` from which on every read of the
flag returns true, and before which every read returns false. -/
def setFrom (k : Nat) : Nat → Bool := fun i => decide (k ≤ i)

/-- C8: the cancellation flag is checked before each decoded frame is
accumulated, and once it reads true the loop returns immediately,
enqueuing nothing further -- not even the partially accumulated chunk.
Consequently a run with the flag set from iteration `k` on enqueues
exactly what a run over only the first `k` decoded frames enqueues: no
frame decoded at or after the flag was observed set reaches the
channel. -/
theorem stream_and_play_cons (cs : Nat) (ex : Nat → Bool) (i : Nat)
    (c : List (List Frame)) (f : List Frame) (rest : List (List Frame)) :
    stream_and_play cs ex i c (f :: rest) =
      if ex i then []
      else
        if (c ++ [f]).length = cs then
          (c ++ [f]).flatten :: stream_and_play cs ex (i + 1) [] rest
        else stream_and_play cs ex (i + 1) (c ++ [f]) rest := rfl

theorem exit_flag_stops_loop (chunkSize k i : Nat) (chunk : List (List Frame))
    (frames : List (List Frame)) (h : k ≤ i) :
    stream_and_play chunkSize (setFrom k) i chunk frames = [] ∧
    stream_and_play chunkSize (setFrom k) 0 [] frames =
      stream_and_play chunkSize (setFrom k) 0 [] (frames.take k) := by
  have key : ∀ (fs : List (List Frame)) (j : Nat) (c : List (List Frame)), j ≤ k →
      stream_and_play chunkSize (setFrom k) j c fs =
        stream_and_play chunkSize (setFrom k) j c (fs.take (k - j)) := by
    intro fs
    induction fs with
    | nil =>
        intro j c _
        simp
    | cons f rest ih =>
        intro j c hj
        by_cases hjk : j = k
        · have hx : setFrom k j = true := by simp [setFrom, hjk]
          have hk0 : k - j = 0 := by omega
          rw [hk0, List.take_zero, stream_and_play_cons, if_pos hx]
          rfl
        · have hx : ¬(setFrom k j = true) := by
            simp only [setFrom, decide_eq_true_eq]
            omega
          have hk1 : k - j = (k - (j + 1)) + 1 := by omega
          rw [hk1, List.take_succ_cons, stream_and_play_cons, stream_and_play_cons,
            if_neg hx, if_neg hx]
          by_cases hc : (c ++ [f]).length = chunkSize
          · rw [if_pos hc, if_pos hc, ih (j + 1) [] (by omega)]
          · rw [if_neg hc, if_neg hc, ih (j + 1) (c ++ [f]) (by omega)]
  have hstop : ∀ (c fs : List (List Frame)),
      stream_and_play chunkSize (setFrom k) i c fs = [] := by
    intro c fs
    cases fs with
    | nil => rfl
    | cons f rest =>
        have hx : setFrom k i = true := by simp [setFrom, h]
        rw [stream_and_play_cons, if_pos hx]
  exact ⟨hstop chunk frames, by simpa using key frames 0 [] (Nat.zero_le k)⟩

/-- Witness for C8: threshold 1 and the flag set from iteration 1 on; a
run already past the flag enqueues nothing, and a fresh run over two
decoded frames enqueues only the first. -/
theorem exit_flag_stops_loop_witness :
    stream_and_play 1 (setFrom 1) 2 [] [[(5, 5)], [(6, 6)]] = [] ∧
    stream_and_play 1 (setFrom 1) 0 [] [[(5, 5)], [(6, 6)]] =
      stream_and_play 1 (setFrom 1) 0 [] ([[(5, 5)], [(6, 6)]].take 1) :=
  exit_flag_stops_loop 1 1 2 [] [[(5, 5)], [(6, 6)]] (by decide)

/-- The decode loop together with its frame source, when the source can
fail mid-stream.  `frames` is the full sequence the decoder would yield
and `errAt = some e` means the demux/decode call raises at the pull of
frame number `e` (the function has no handler, so iteration ends there
and the exception propagates out of the worker).  The result pairs the
chunks passed to `add_audio` with whether an exception escaped
`_stream_and_play`; `errAt = none` is a stream that ends naturally. -/
def stream_and_play_err (chunkSize : Nat) (ex : Nat → Bool) (errAt : Option Nat) :
    Nat → List (List Frame) → List (List Frame) → List (List Frame) × Bool
  | i, _, [] => if errAt = some i then ([], true) else ([], false)
  | i, chunk, f :: rest =>
      if errAt = some i then ([], true)
      else if ex i then ([], false)
      else if (chunk ++ [f]).length = chunkSize then
        ((chunk ++ [f]).flatten :: (stream_and_play_err chunkSize ex errAt (i + 1) [] rest).1,
         (stream_and_play_err chunkSize ex errAt (i + 1) [] rest).2)
      else stream_and_play_err chunkSize ex errAt (i + 1) (chunk ++ [f]) rest

theorem stream_and_play_err_nil (cs : Nat) (ex : Nat → Bool) (errAt : Option Nat)
    (i : Nat) (c : List (List Frame)) :
    stream_and_play_err cs ex errAt i c [] =
      if errAt = some i then ([], true) else ([], false) := rfl

theorem stream_and_play_err_cons (cs : Nat) (ex : Nat → Bool) (errAt : Option Nat)
    (i : Nat) (c : List (List Frame)) (f : List Frame) (rest : List (List Frame)) :
    stream_and_play_err cs ex errAt i c (f :: rest) =
      if errAt = some i then ([], true)
      else if ex i then ([], false)
      else if (c ++ [f]).length = cs then
        ((c ++ [f]).flatten :: (stream_and_play_err cs ex errAt (i + 1) [] rest).1,
         (stream_and_play_err cs ex errAt (i + 1) [] rest).2)
      else stream_and_play_err cs ex errAt (i + 1) (c ++ [f]) rest := rfl

theorem stream_and_play_err_none (cs : Nat) (ex : Nat → Bool) :
    ∀ (fs : List (List Frame)) (i : Nat) (c : List (List Frame)),
      (stream_and_play_err cs ex none i c fs).1 = stream_and_play cs ex i c fs := by
  intro fs
  induction fs with
  | nil =>
      intro i c
      rfl
  | cons f rest ih =>
      intro i c
      rw [stream_and_play_err_cons, stream_and_play_cons]
      simp only [reduceCtorEq, if_false]
      by_cases hx : ex i = true
      · rw [if_pos hx, if_pos hx]
      · rw [if_neg hx, if_neg hx]
        by_cases hc : (c ++ [f]).length = cs
        · rw [if_pos hc, if_pos hc]
          simp [ih]
        · rw [if_neg hc, if_neg hc, ih]

/-- C9: a mid-stream decode failure at pull `e` makes the worker enqueue
exactly what a stream that ends naturally after `e` frames would
enqueue: the partially accumulated chunk is not flushed (at stream end,
natural or not, nothing further is enqueued), chunks already enqueued
are untouched, and the loop never restarts.  The exception leaves
`_stream_and_play` (second component `true`), killing only the worker
thread, so what the channel drains is exactly the end-of-stream
behaviour. -/
theorem decode_error_like_eos (chunkSize : Nat) (ex : Nat → Bool) (e : Nat)
    (frames : List (List Frame)) :
    (stream_and_play_err chunkSize ex (some e) 0 [] frames).1 =
      (stream_and_play_err chunkSize ex none 0 [] (frames.take e)).1 ∧
    (stream_and_play_err chunkSize ex none 0 [] (frames.take e)).1 =
      stream_and_play chunkSize ex 0 [] (frames.take e) := by
  refine ⟨?_, stream_and_play_err_none chunkSize ex (frames.take e) 0 []⟩
  have key : ∀ (fs : List (List Frame)) (i : Nat) (c : List (List Frame)), i ≤ e →
      (stream_and_play_err chunkSize ex (some e) i c fs).1 =
        (stream_and_play_err chunkSize ex none i c (fs.take (e - i))).1 := by
    intro fs
    induction fs with
    | nil =>
        intro i c _
        rw [List.take_nil, stream_and_play_err_nil, stream_and_play_err_nil]
        by_cases hie : (some e : Option Nat) = some i <;> simp [hie]
    | cons f rest ih =>
        intro i c hi
        by_cases hie : i = e
        · have he0 : e - i = 0 := by omega
          rw [he0, List.take_zero, stream_and_play_err_cons, stream_and_play_err_nil]
          rw [if_pos (by rw [hie]), if_neg (by simp)]
        · have hne : ¬((some e : Option Nat) = some i) := by
            simp only [Option.some_inj]
            omega
          have he1 : e - i = (e - (i + 1)) + 1 := by omega
          rw [he1, List.take_succ_cons, stream_and_play_err_cons, stream_and_play_err_cons,
            if_neg hne]
          simp only [reduceCtorEq, if_false]
          by_cases hx : ex i = true
          · rw [if_pos hx, if_pos hx]
          · rw [if_neg hx, if_neg hx]
            by_cases hc : (c ++ [f]).length = chunkSize
            · rw [if_pos hc, if_pos hc]
              simp only [List.cons.injEq, true_and]
              exact ih (i + 1) [] (by omega)
            · rw [if_neg hc, if_neg hc]
              exact ih (i + 1) (c ++ [f]) (by omega)
  simpa using key frames 0 [] (Nat.zero_le e)

/-- Observable lifecycle events of a `YouTubeAudioPlayer`:
`openPlayer n` is the construction of `StreamingAudioPlayer` number `n`
inside `play()` (which opens and starts an output stream),
`startWorker n` is `self._stream_thread.start()` for worker thread `n`,
`setExitFlag` is the write `self._exit_worker = True`, `joinWorker n` is
the return of `self._stream_thread.join()` (thread `n` has exited), and
`closePlayer n` is the call `self._player.close()`. -/
inductive YTEvent where
  | openPlayer : Nat → YTEvent
  | startWorker : Nat → YTEvent
  | setExitFlag : YTEvent
  | joinWorker : Nat → YTEvent
  | closePlayer : Nat → YTEvent
deriving DecidableEq, Repr

/-- State of a `YouTubeAudioPlayer` plus a ledger of the resources the
process holds.  `streamThread`, `player` and `exitWorker` mirror
`self._stream_thread`, `self._player` and `self._exit_worker`
(identified by allocation number; `none` = Python `None`).
`liveWorkers` lists the worker threads started and not yet joined,
`activeStreams` the `StreamingAudioPlayer`s constructed and not yet
closed.  `trace` records every lifecycle event in call order. -/
structure YouTubeAudioPlayer where
  streamThread : Option Nat
  player : Option Nat
  exitWorker : Bool
  liveWorkers : List Nat
  activeStreams : List Nat
  nextId : Nat
  trace : List YTEvent
deriving DecidableEq, Repr

/-- `YouTubeAudioPlayer.__init__` (lines 108-123): no worker thread yet
(`self._stream_thread = None`), no player, nothing live. -/
def YouTubeAudioPlayer.mkInit : YouTubeAudioPlayer :=
  ⟨none, none, false, [], [], 0, []⟩

/-- Lines 143-151, `YouTubeAudioPlayer.stop`: if `self._stream_thread`
is not `None`, set the exit flag, join the worker (it leaves the live
set: the flag was set first, so the cooperative loop exits), and only
then close the player.  Note the code never resets `_stream_thread` to
`None`, so a repeated `stop()` re-enters this branch. -/
def YouTubeAudioPlayer.stop (s : YouTubeAudioPlayer) : YouTubeAudioPlayer :=
  if s.streamThread = none then s
  else
    { s with
        exitWorker := true,
        liveWorkers := s.liveWorkers.filter (fun i => i ≠ s.streamThread.getD 0),
        activeStreams := s.activeStreams.filter (fun i => i ≠ s.player.getD 0),
        trace := s.trace ++
          [YTEvent.setExitFlag, YTEvent.joinWorker (s.streamThread.getD 0),
           YTEvent.closePlayer (s.player.getD 0)] }

/-- Lines 125-141, `YouTubeAudioPlayer.play(start_time_seconds)`: first
`self.stop()`, then construct a fresh `StreamingAudioPlayer` (opening a
new output stream), clear the exit flag, and create and start the new
worker thread running `_stream_and_play(start_time_seconds)`. -/
def YouTubeAudioPlayer.play (_start_time_seconds : Int) (s : YouTubeAudioPlayer) :
    YouTubeAudioPlayer :=
  let s1 := s.stop
  { streamThread := some (s1.nextId + 1),
    player := some s1.nextId,
    exitWorker := false,
    liveWorkers := s1.liveWorkers ++ [s1.nextId + 1],
    activeStreams := s1.activeStreams ++ [s1.nextId],
    nextId := s1.nextId + 2,
    trace := s1.trace ++
      [YTEvent.openPlayer s1.nextId, YTEvent.startWorker (s1.nextId + 1)] }

/-- A call the owner of a `YouTubeAudioPlayer` can make. -/
inductive YTOp where
  | play : Int → YTOp
  | stop : YTOp
deriving DecidableEq, Repr

def applyOp (s : YouTubeAudioPlayer) : YTOp → YouTubeAudioPlayer
  | YTOp.play t => YouTubeAudioPlayer.play t s
  | YTOp.stop => YouTubeAudioPlayer.stop s

/-- The state after a sequence of `play`/`stop` calls on a freshly
constructed `YouTubeAudioPlayer`. -/
def reachState (ops : List YTOp) : YouTubeAudioPlayer :=
  ops.foldl applyOp YouTubeAudioPlayer.mkInit

/-- The session invariant: when a session is live (`exitWorker` false
and a thread handle present) exactly the current worker and the current
player are alive; otherwise nothing is alive. -/
def YTInv (s : YouTubeAudioPlayer) : Prop :=
  if s.streamThread = none ∨ s.exitWorker then
    s.liveWorkers = [] ∧ s.activeStreams = []
  else
    s.liveWorkers = [s.streamThread.getD 0] ∧
      ∃ pid, s.player = some pid ∧ s.activeStreams = [pid]

theorem stop_kills_all (s : YouTubeAudioPlayer) (h : YTInv s) :
    s.stop.liveWorkers = [] ∧ s.stop.activeStreams = [] := by
  unfold YouTubeAudioPlayer.stop
  by_cases hst : s.streamThread = none
  · rw [if_pos hst]
    unfold YTInv at h
    rw [if_pos (Or.inl hst)] at h
    exact h
  · rw [if_neg hst]
    unfold YTInv at h
    by_cases hex : s.exitWorker = true
    · rw [if_pos (Or.inr hex)] at h
      simp [h.1, h.2]
    · rw [if_neg (by simp [hst, hex])] at h
      obtain ⟨hw, pid, hp, ha⟩ := h
      simp [hw, ha, hp]

theorem YTInv_stop (s : YouTubeAudioPlayer) (h : YTInv s) : YTInv s.stop := by
  obtain ⟨hw, ha⟩ := stop_kills_all s h
  by_cases h0 : s.streamThread = none
  · have hs : s.stop = s := by
      unfold YouTubeAudioPlayer.stop
      rw [if_pos h0]
    rw [hs]
    exact h
  · have hex : s.stop.exitWorker = true := by
      unfold YouTubeAudioPlayer.stop
      rw [if_neg h0]
    unfold YTInv
    rw [if_pos (Or.inr hex)]
    exact ⟨hw, ha⟩

theorem YTInv_play (t : Int) (s : YouTubeAudioPlayer) (h : YTInv s) :
    YTInv (YouTubeAudioPlayer.play t s) := by
  obtain ⟨hw, ha⟩ := stop_kills_all s h
  unfold YouTubeAudioPlayer.play
  unfold YTInv
  simp [hw, ha]

theorem YTInv_reach (ops : List YTOp) : YTInv (reachState ops) := by
  have key : ∀ (l : List YTOp) (s : YouTubeAudioPlayer), YTInv s →
      YTInv (l.foldl applyOp s) := by
    intro l
    induction l with
    | nil => intro s h; exact h
    | cons o rest ih =>
        intro s h
        cases o with
        | play t => exact ih _ (YTInv_play t s h)
        | stop => exact ih _ (YTInv_stop s h)
  exact key ops YouTubeAudioPlayer.mkInit (by simp [YTInv, YouTubeAudioPlayer.mkInit])

theorem stop_nextId (s : YouTubeAudioPlayer) : s.stop.nextId = s.nextId := by
  unfold YouTubeAudioPlayer.stop
  by_cases h : s.streamThread = none
  · rw [if_pos h]
  · rw [if_neg h]

theorem play_fields (t : Int) (s : YouTubeAudioPlayer) :
    (YouTubeAudioPlayer.play t s).streamThread = some (s.stop.nextId + 1) ∧
    (YouTubeAudioPlayer.play t s).player = some s.stop.nextId ∧
    (YouTubeAudioPlayer.play t s).exitWorker = false ∧
    (YouTubeAudioPlayer.play t s).nextId = s.stop.nextId + 2 ∧
    (YouTubeAudioPlayer.play t s).liveWorkers =
      s.stop.liveWorkers ++ [s.stop.nextId + 1] ∧
    (YouTubeAudioPlayer.play t s).activeStreams =
      s.stop.activeStreams ++ [s.stop.nextId] ∧
    (YouTubeAudioPlayer.play t s).trace = s.stop.trace ++
      [YTEvent.openPlayer s.stop.nextId, YTEvent.startWorker (s.stop.nextId + 1)] :=
  ⟨rfl, rfl, rfl, rfl, rfl, rfl, rfl⟩

theorem YTInv_lengths (s : YouTubeAudioPlayer) (h : YTInv s) :
    s.liveWorkers.length ≤ 1 ∧ s.activeStreams.length ≤ 1 := by
  unfold YTInv at h
  by_cases hc : s.streamThread = none ∨ s.exitWorker = true
  · rw [if_pos hc] at h
    simp [h.1, h.2]
  · rw [if_neg hc] at h
    obtain ⟨hw, pid, _, ha⟩ := h
    simp [hw, ha]

theorem stop_trace_of_playing (s : YouTubeAudioPlayer) (w p : Nat)
    (hw : s.streamThread = some w) (hp : s.player = some p) :
    s.stop.trace = s.trace ++
      [YTEvent.setExitFlag, YTEvent.joinWorker w, YTEvent.closePlayer p] := by
  unfold YouTubeAudioPlayer.stop
  rw [if_neg (by simp [hw])]
  simp [hw, hp]

/-- C5: every state reachable by `play`/`stop` calls satisfies the
single-session invariant (at most one live worker thread and one active
output stream); and a `play(t2)` issued while the session from
`play(t1)` is live first runs the complete stop sequence -- set the
flag, join the old worker `w`, close the old player `p` -- and only then
opens the new player `p2` and starts the new worker `w2`, as the trace
shows, so that after `play(t2)` returns exactly one worker and one
stream are live, namely the new pair. -/
theorem play_single_session (ops : List YTOp) (t1 t2 : Int) :
    YTInv (reachState ops) ∧
    (reachState ops).liveWorkers.length ≤ 1 ∧
    (reachState ops).activeStreams.length ≤ 1 ∧
    (∃ w p w2 p2,
      (YouTubeAudioPlayer.play t1 (reachState ops)).streamThread = some w ∧
      (YouTubeAudioPlayer.play t1 (reachState ops)).player = some p ∧
      (YouTubeAudioPlayer.play t2
          (YouTubeAudioPlayer.play t1 (reachState ops))).streamThread = some w2 ∧
      (YouTubeAudioPlayer.play t2
          (YouTubeAudioPlayer.play t1 (reachState ops))).player = some p2 ∧
      (YouTubeAudioPlayer.play t2
          (YouTubeAudioPlayer.play t1 (reachState ops))).trace =
        (YouTubeAudioPlayer.play t1 (reachState ops)).trace ++
          [YTEvent.setExitFlag, YTEvent.joinWorker w, YTEvent.closePlayer p,
           YTEvent.openPlayer p2, YTEvent.startWorker w2] ∧
      (YouTubeAudioPlayer.play t2
          (YouTubeAudioPlayer.play t1 (reachState ops))).liveWorkers = [w2] ∧
      (YouTubeAudioPlayer.play t2
          (YouTubeAudioPlayer.play t1 (reachState ops))).activeStreams = [p2]) := by
  have hs := YTInv_reach ops
  have hlen := YTInv_lengths _ hs
  refine ⟨hs, hlen.1, hlen.2, ?_⟩
  have hinv1 : YTInv (YouTubeAudioPlayer.play t1 (reachState ops)) :=
    YTInv_play t1 _ hs
  obtain ⟨hw1, ha1⟩ := stop_kills_all _ hinv1
  obtain ⟨h1st, h1p, _, _, _, _, _⟩ := play_fields t1 (reachState ops)
  obtain ⟨h2st, h2p, _, _, h2lw, h2as, h2tr⟩ :=
    play_fields t2 (YouTubeAudioPlayer.play t1 (reachState ops))
  refine ⟨(reachState ops).stop.nextId + 1, (reachState ops).stop.nextId,
    (YouTubeAudioPlayer.play t1 (reachState ops)).stop.nextId + 1,
    (YouTubeAudioPlayer.play t1 (reachState ops)).stop.nextId,
    h1st, h1p, h2st, h2p, ?_, ?_, ?_⟩
  · rw [h2tr, stop_trace_of_playing _ _ _ h1st h1p]
    simp
  · rw [h2lw, hw1]
    simp
  · rw [h2as, ha1]
    simp

/-- C6: on a playing session (`self._stream_thread` is thread `w`,
`self._player` is player `p`), `stop()` appends to the event trace, in
this order: the cancellation-flag write, the join of worker `w`, and
only then the close of player `p`.  The driver is never released before
the join completes, and the flag is set when `stop()` returns. -/
theorem stop_ordering (s : YouTubeAudioPlayer) (w p : Nat)
    (hw : s.streamThread = some w) (hp : s.player = some p) :
    s.stop.trace = s.trace ++
      [YTEvent.setExitFlag, YTEvent.joinWorker w, YTEvent.closePlayer p] ∧
    s.stop.exitWorker = true := by
  unfold YouTubeAudioPlayer.stop
  rw [if_neg (by simp [hw])]
  simp [hw, hp]

/-- Witness for C6: the session right after the first `play(0)`, whose
worker is thread 1 and whose player is player 0. -/
theorem stop_ordering_witness :
    (YouTubeAudioPlayer.play 0 YouTubeAudioPlayer.mkInit).stop.trace =
      (YouTubeAudioPlayer.play 0 YouTubeAudioPlayer.mkInit).trace ++
        [YTEvent.setExitFlag, YTEvent.joinWorker 1, YTEvent.closePlayer 0] ∧
    (YouTubeAudioPlayer.play 0 YouTubeAudioPlayer.mkInit).stop.exitWorker = true :=
  stop_ordering _ 1 0 (by decide) (by decide)

/-- C7 (refuting idempotence of `stop()` after a session): on a player
that has never played, `stop()` is indeed a no-op; but after `play(0)`
followed by `stop()`, a second `stop()` is not a no-op, because
`_stream_thread` is never reset to `None`: it re-enters the teardown
branch, re-joins the dead thread and calls `self._player.close()` a
second time, so the trace holds two `closePlayer 0` events where the
claim allows one. -/
theorem stop_after_stop_recloses :
    YouTubeAudioPlayer.mkInit.stop = YouTubeAudioPlayer.mkInit ∧
    (reachState [YTOp.play 0, YTOp.stop]).stop ≠
      reachState [YTOp.play 0, YTOp.stop] ∧
    (reachState [YTOp.play 0, YTOp.stop]).stop.trace.count
      (YTEvent.closePlayer 0) = 2 ∧
    (reachState [YTOp.play 0, YTOp.stop]).trace.count (YTEvent.closePlayer 0) = 1 := by
  refine ⟨rfl, ?_, ?_, ?_⟩ <;> decide

/-- Witness for C4: a state with a leftover and a queued chunk for the
single-fetch conjunct, and two concrete 100-frame chunks for the
scenario conjuncts. -/
theorem single_fetch_scenario_witness :
    (List.replicate 100 ((1 : Int), (1 : Int))).length = 100 ∧
    ((_audio_callback 1 ⟨[[(9, 9)]], some [(4, 4)]⟩).2.queue =
        (⟨[[(9, 9)]], some [(4, 4)]⟩ : StreamingAudioPlayer).queue.tail ∧
      (_audio_callback 150 ⟨[List.replicate 100 ((1 : Int), (1 : Int)),
          List.replicate 100 ((2 : Int), (2 : Int))], none⟩).1 =
        List.replicate 100 ((1 : Int), (1 : Int)) ++ List.replicate 50 zeroFrame ∧
      (_audio_callback 150 ⟨[List.replicate 100 ((1 : Int), (1 : Int)),
          List.replicate 100 ((2 : Int), (2 : Int))], none⟩).2 =
        ⟨[List.replicate 100 ((2 : Int), (2 : Int))], none⟩ ∧
      (_audio_callback 150 (_audio_callback 150 ⟨[List.replicate 100 ((1 : Int), (1 : Int)),
          List.replicate 100 ((2 : Int), (2 : Int))], none⟩).2).1 =
        List.replicate 100 ((2 : Int), (2 : Int)) ++ List.replicate 50 zeroFrame ∧
      (_audio_callback 150 (_audio_callback 150 ⟨[List.replicate 100 ((1 : Int), (1 : Int)),
          List.replicate 100 ((2 : Int), (2 : Int))], none⟩).2).2 =
        ⟨[], none⟩) :=
  ⟨by simp,
   single_fetch_scenario ⟨[[(9, 9)]], some [(4, 4)]⟩ 1
     (List.replicate 100 ((1 : Int), (1 : Int)))
     (List.replicate 100 ((2 : Int), (2 : Int))) (by simp) (by simp)⟩
